import Mathlib

/-!
Shallow embedding of `apps/hubble/src/storage/jobs/validateOrRevokeMessagesJob.ts`
(the `ValidateOrRevokeMessagesJobScheduler` class) and proofs about it.

The engine, the RocksDB iterator and the hub-state store are external
collaborators of this module; they are modelled as an explicit environment
(`VrJob.Env`) supplying the results of each external call, and the job's
stateful fields (`_running`, the persisted hub state) are threaded as an
explicit `VrJob.JobState`.  The unbounded `do/while` loops of the source are
modelled with explicit fuel, returning `none` when the fuel is exhausted
before the loop's own exit condition fires.  Externally observable actions
(per-entity processing, decode/validate calls, checkpoint writes) are
recorded in a trace of `VrJob.JobEvent`s.
-/

namespace VrJob

/-- Error type mirroring `HubError` from the hub packages: an error code and a
message. -/
structure HubError where
  errCode : String
  message : String
deriving Repr, DecidableEq

/-- Mirrors `Result.unwrapOr` of the neverthrow library, as used at
`numChecked.unwrapOr(0)` and `toFarcasterTime(start).unwrapOr(0)`. -/
def resultUnwrapOr (r : Except HubError Nat) (d : Nat) : Nat :=
  match r with
  | .ok v => v
  | .error _ => d

/-- Modelled from the spec: `FID_BYTES`, the byte width of an entity id in a
record key, lives in the db types module which is outside the provided source
slice.  The spec fixes only the key layout `1 + FID_BYTES + 1 + TSHASH_LENGTH`;
the concrete value is a representative constant. -/
def FID_BYTES : Nat := 4

/-- Modelled from the spec: `TSHASH_LENGTH`, the byte width of the
timestamp-hash portion of a record key; concrete value is a representative
constant, the claims depend only on the total key length. -/
def TSHASH_LENGTH : Nat := 24

/-- Exact length of a message record key:
`[marker(1)] [entityId(FID_BYTES)] [typeTag(1)] [tsHash(TSHASH_LENGTH)]`. -/
def RECORD_KEY_LEN : Nat := 1 + FID_BYTES + 1 + TSHASH_LENGTH

/-- Modelled from the spec: the user-profile-data record-type tag
(`UserPostfix.UserDataMessage` in the db types module, outside the provided
source slice). -/
def UserDataMessage : Nat := 6

/-- Modelled from the spec: the username-proof record-type tag
(`UserPostfix.UsernameProofMessage` in the db types module, outside the
provided source slice). -/
def UsernameProofMessage : Nat := 7

/-- Modelled from the spec: the largest valid message record-type tag
(`UserMessagePostfixMax` in the db types module, outside the provided source
slice); message tags form the enumerated range from 1 up to this value. -/
def UserMessagePostfixMax : Nat := 8

/-- Modelled from the spec: the logical-time conversion `toFarcasterTime`
(from the hub core package, outside the provided source slice).  It converts
a wall-clock millisecond timestamp into seconds since the Farcaster epoch,
failing on times before the epoch or too far in the future. -/
def FARCASTER_EPOCH : Nat := 1609459200000

/-- Modelled from the spec: logical-time conversion of a millisecond
wall-clock timestamp; fails below the epoch and above the 32-bit bound,
rounding to the nearest second otherwise. -/
def toFarcasterTime (ms : Nat) : Except HubError Nat :=
  if ms < FARCASTER_EPOCH then
    .error ⟨"bad_request.invalid_param", "time must be after Farcaster epoch"⟩
  else
    let secondsSinceEpoch := (ms - FARCASTER_EPOCH + 500) / 1000
    if 4294967295 < secondsSinceEpoch then
      .error ⟨"bad_request.invalid_param", "time too far in future"⟩
    else
      .ok secondsSinceEpoch

/-- An on-chain signer event; the job reads only its `blockTimestamp`
(seconds). -/
structure OnChainEvent where
  blockTimestamp : Nat
deriving Repr, DecidableEq

/-- The `validateOrRevokeState` sub-record of the persisted hub state:
the job's checkpoint. -/
structure ValidateOrRevokeState where
  lastFid : Nat
  lastJobTimestamp : Nat
deriving Repr, DecidableEq

/-- The persisted hub state, restricted to the field this job touches. -/
structure HubState where
  validateOrRevokeState : Option ValidateOrRevokeState
deriving Repr, DecidableEq

/-- The scheduler's mutable fields threaded through a run: the `_running`
flag and the db-persisted hub state. -/
structure JobState where
  running : Bool
  hub : HubState
deriving Repr, DecidableEq

/-- Externally observable actions of a run, recorded as a trace.
`fidProcessed` marks the body of the per-entity loop executing for an entity
(`totalFidsChecked += 1`); `sweepRun` marks the primary record sweep actually
iterating (not skipped by the staleness check); `mdecode`/`mvalidate` are the
decode and validate-or-revoke calls of the primary sweep; `udecode` /
`uvalidate` those of the username sweep; `usernamesSweep` marks
`doUsernamesJobForFid` executing; `checkpointWrite` a hub-state write. -/
inductive JobEvent where
  | fidProcessed (fid : Nat)
  | sweepRun (fid : Nat)
  | mdecode (fid : Nat) (key : List Nat)
  | mvalidate (fid : Nat) (key : List Nat)
  | udecode (fid : Nat) (key : List Nat)
  | uvalidate (fid : Nat) (key : List Nat)
  | usernamesSweep (fid : Nat)
  | checkpointWrite (lastFid lastJobTimestamp : Nat)
deriving Repr, DecidableEq

/-- The environment of external collaborators: results of each external call
the job makes.  `getHubStateErr` injects a failure into the initial
`getHubState` read (the only one the source error-wraps); `now` is the
wall-clock time `Date.now()` at run start; `getFids` is the paginated entity
enumeration (tokens modelled as `Nat`); `getOnChainSignersByFid` the signer
event query — note the source calls it with the fid only, never passing a
page token; `userKeys` the key/value pairs under `makeUserKey fid` in the
store's iteration order; `messageDecode` the record decoder (only success or
failure is observable to the job's control flow). -/
structure Env where
  getHubStateErr : Option HubError
  now : Nat
  getFids : Option Nat → Except HubError (List Nat × Option Nat)
  getOnChainSignersByFid : Nat → Except HubError (List OnChainEvent × Option Nat)
  userKeys : Nat → List (List Nat × List Nat)
  messageDecode : List Nat → Except HubError Nat

/-- The record-type tag of a key: the byte at offset `1 + FID_BYTES`
(source: `(key as Buffer).readUint8(1 + FID_BYTES)`). -/
def tagOf (key : List Nat) : Nat := key.getD (1 + FID_BYTES) 0

/-- One key of the primary sweep's iterator callback (`doJobForFid`, lines
177-209): skip keys of the wrong length, skip tags above
`UserMessagePostfixMax`, otherwise decode; on successful decode call
`validateOrRevokeMessage` and count the record. -/
def processMessageKey (env : Env) (fid : Nat) (kv : List Nat × List Nat) :
    Nat × List JobEvent :=
  if kv.1.length ≠ RECORD_KEY_LEN then
    (0, [])
  else if UserMessagePostfixMax < tagOf kv.1 then
    (0, [])
  else
    match env.messageDecode kv.2 with
    | .error _ => (0, [.mdecode fid kv.1])
    | .ok _ => (1, [.mdecode fid kv.1, .mvalidate fid kv.1])

/-- The primary sweep over the keys under the entity's user-key prefix. -/
def sweepMessages (env : Env) (fid : Nat) :
    List (List Nat × List Nat) → Nat × List JobEvent
  | [] => (0, [])
  | kv :: rest =>
    ((processMessageKey env fid kv).1 + (sweepMessages env fid rest).1,
     (processMessageKey env fid kv).2 ++ (sweepMessages env fid rest).2)

/-- One key of the username sweep's iterator callback (`doUsernamesJobForFid`,
lines 228-259): skip keys of the wrong length, skip tags other than
`UsernameProofMessage` and `UserDataMessage`, otherwise decode; on successful
decode call `validateOrRevokeMessage` and count the record. -/
def processUsernameKey (env : Env) (fid : Nat) (kv : List Nat × List Nat) :
    Nat × List JobEvent :=
  if kv.1.length ≠ RECORD_KEY_LEN then
    (0, [])
  else if tagOf kv.1 ≠ UsernameProofMessage ∧ tagOf kv.1 ≠ UserDataMessage then
    (0, [])
  else
    match env.messageDecode kv.2 with
    | .error _ => (0, [.udecode fid kv.1])
    | .ok _ => (1, [.udecode fid kv.1, .uvalidate fid kv.1])

/-- The username sweep over the keys under the entity's user-key prefix. -/
def sweepUsernames (env : Env) (fid : Nat) :
    List (List Nat × List Nat) → Nat × List JobEvent
  | [] => (0, [])
  | kv :: rest =>
    ((processUsernameKey env fid kv).1 + (sweepUsernames env fid rest).1,
     (processUsernameKey env fid kv).2 ++ (sweepUsernames env fid rest).2)

/-- The signer-event fetch loop of `doJobForFid` (lines 140-158).  Mirrors the
source faithfully: `getOnChainSignersByFid` is called with the fid only — the
`pageToken` variable is assigned from `nextPageToken` but never passed to the
query — and the loop repeats until a response carries no continuation token.
Fuel bounds the iteration; `none` means the fuel ran out before the loop
exited. -/
def signersLoop (env : Env) (fid : Nat) :
    Nat → List OnChainEvent → Option Nat → Option (Except HubError (List OnChainEvent))
  | 0, _, _ => none
  | fuel + 1, allSigners, _ =>
    match env.getOnChainSignersByFid fid with
    | .error e => some (.error e)
    | .ok (events, nextPageToken) =>
      match nextPageToken with
      | none => some (.ok (allSigners ++ events))
      | some t => signersLoop env fid fuel (allSigners ++ events) (some t)

/-- The newest signer event's timestamp in logical time (lines 161-166):
`toFarcasterTime(1000 * reduce max over blockTimestamp, initial 0).unwrapOr(0)`. -/
def latestSignerEventTs (allSigners : List OnChainEvent) : Nat :=
  resultUnwrapOr
    (toFarcasterTime
      (1000 *
        allSigners.foldl
          (fun acc signer =>
            if signer.blockTimestamp < acc then acc else signer.blockTimestamp)
          0))
    0

/-- `doJobForFid` (lines 133-215): fetch all signer events (paginated loop),
propagate a fetch error, compute the latest signer-event logical timestamp,
return `ok 0` without sweeping when it is strictly below `lastJobTimestamp`,
otherwise run the primary record sweep and return the count of records
checked. -/
def doJobForFid (env : Env) (fuel : Nat) (lastJobTimestamp fid : Nat) :
    Option (Except HubError Nat × List JobEvent) :=
  match signersLoop env fid fuel [] none with
  | none => none
  | some (.error e) => some (.error e, [])
  | some (.ok allSigners) =>
    if latestSignerEventTs allSigners < lastJobTimestamp then
      some (.ok 0, [])
    else
      some (.ok (sweepMessages env fid (env.userKeys fid)).1,
            .sweepRun fid :: (sweepMessages env fid (env.userKeys fid)).2)

/-- `doUsernamesJobForFid` (lines 222-266): always runs the username sweep,
taking no staleness watermark, and always returns `ok count`. -/
def doUsernamesJobForFid (env : Env) (fid : Nat) :
    Except HubError Nat × List JobEvent :=
  (.ok (sweepUsernames env fid (env.userKeys fid)).1,
   .usernamesSweep fid :: (sweepUsernames env fid (env.userKeys fid)).2)

/-- The body of the per-entity `for` loop of `doJobs` (lines 84-109): skip
entities below the checkpointed `lastFid`, otherwise run `doJobForFid` and
`doUsernamesJobForFid`, add both counts with `unwrapOr 0` (errors are
swallowed), count the entity, and every 5000 processed entities persist a
progress checkpoint `(lastFid := fid, lastJobTimestamp unchanged)`. -/
def processFids (env : Env) (sigFuel lastJobTimestamp lastFid : Nat) :
    List Nat → Nat → Nat → JobState → Option (Nat × Nat × List JobEvent × JobState)
  | [], totalM, totalF, st => some (totalM, totalF, [], st)
  | fid :: rest, totalM, totalF, st =>
    if 0 < lastFid ∧ fid < lastFid then
      processFids env sigFuel lastJobTimestamp lastFid rest totalM totalF st
    else
      match doJobForFid env sigFuel lastJobTimestamp fid with
      | none => none
      | some (numChecked, trJob) =>
        match processFids env sigFuel lastJobTimestamp lastFid rest
            (totalM + resultUnwrapOr numChecked 0 +
              resultUnwrapOr (doUsernamesJobForFid env fid).1 0)
            (totalF + 1)
            (if (totalF + 1) % 5000 = 0 then
              { st with hub := ⟨some ⟨fid, lastJobTimestamp⟩⟩ }
            else st) with
        | none => none
        | some (a, b, tr, st2) =>
          some (a, b,
            .fidProcessed fid ::
              (trJob ++ (doUsernamesJobForFid env fid).2 ++
                (if (totalF + 1) % 5000 = 0 then
                  [.checkpointWrite fid lastJobTimestamp]
                else []) ++ tr), st2)

/-- The entity-page `do/while` loop of `doJobs` (lines 69-110) together with
the terminal-checkpoint epilogue (lines 112-126): fetch a page of fids
(propagating a fetch error as-is, without touching the running flag), process
its fids, and either recurse on the continuation token or — when the token is
absent — write the terminal checkpoint `(lastFid := 0, lastJobTimestamp :=
toFarcasterTime(start).unwrapOr(0))`, clear the running flag and return the
total count. -/
def fidsLoop (env : Env) (sigFuel lastJobTimestamp lastFid : Nat) :
    Nat → Option Nat → Nat → Nat → JobState →
      Option (Except HubError Nat × List JobEvent × JobState)
  | 0, _, _, _, _ => none
  | pageFuel + 1, pageToken, totalM, totalF, st =>
    match env.getFids pageToken with
    | .error e => some (.error e, [], st)
    | .ok (fids, nextPageToken) =>
      match processFids env sigFuel lastJobTimestamp lastFid fids totalM totalF st with
      | none => none
      | some (totalM2, totalF2, tr, st2) =>
        match nextPageToken with
        | none =>
          some (.ok totalM2,
                tr ++ [.checkpointWrite 0 (resultUnwrapOr (toFarcasterTime env.now) 0)],
                { running := false,
                  hub := ⟨some ⟨0, resultUnwrapOr (toFarcasterTime env.now) 0⟩⟩ })
        | some t =>
          match fidsLoop env sigFuel lastJobTimestamp lastFid pageFuel (some t)
              totalM2 totalF2 st2 with
          | none => none
          | some (r, tr2, st3) => some (r, tr ++ tr2, st3)

/-- `doJobs` (lines 45-127): return `ok 0` at once when a run is already in
progress; propagate a hub-state read failure (before setting the running
flag); otherwise read the checkpoint (`?? 0` defaults), set the running flag
and drive the entity-page loop. -/
def doJobs (env : Env) (pageFuel sigFuel : Nat) (st : JobState) :
    Option (Except HubError Nat × List JobEvent × JobState) :=
  if st.running then
    some (.ok 0, [], st)
  else
    match env.getHubStateErr with
    | some e => some (.error e, [], st)
    | none =>
      let lastJobTimestamp :=
        match st.hub.validateOrRevokeState with
        | some v => v.lastJobTimestamp
        | none => 0
      let lastFid :=
        match st.hub.validateOrRevokeState with
        | some v => v.lastFid
        | none => 0
      fidsLoop env sigFuel lastJobTimestamp lastFid pageFuel none 0 0
        { st with running := true }

/-- Default cron schedule (line 12). -/
def DEFAULT_VALIDATE_AND_REVOKE_MESSAGES_CRON : String := "0 1 * * *"

/-- A registered cron task: its schedule string and whether it is actively
firing (stopped tasks stay registered). -/
structure CronTask where
  schedule : String
  active : Bool
deriving Repr, DecidableEq

/-- The scheduler's registration field `_cronTask`. -/
structure SchedulerState where
  cronTask : Option CronTask
deriving Repr, DecidableEq

/-- Scheduler status as reported by `status()`. -/
inductive SchedulerStatus where
  | started
  | stopped
deriving Repr, DecidableEq

/-- `start` (lines 31-33): register (or re-register) the cron task. -/
def startScheduler (s : SchedulerState) (cronSchedule : Option String) : SchedulerState :=
  { s with
    cronTask := some ⟨cronSchedule.getD DEFAULT_VALIDATE_AND_REVOKE_MESSAGES_CRON, true⟩ }

/-- `stop` (lines 35-39): stop the task if one is registered; the
registration itself is kept. -/
def stopScheduler (s : SchedulerState) : SchedulerState :=
  { s with cronTask := s.cronTask.map (fun t => ⟨t.schedule, false⟩) }

/-- `status` (lines 41-43): `started` iff a cron task is registered. -/
def schedStatus (s : SchedulerState) : SchedulerStatus :=
  if s.cronTask.isSome then .started else .stopped

/-- A scheduler API call. -/
inductive SchedOp where
  | startOp (cronSchedule : Option String)
  | stopOp
deriving Repr, DecidableEq

/-- Apply one scheduler API call. -/
def applyOp (s : SchedulerState) : SchedOp → SchedulerState
  | .startOp sched => startScheduler s sched
  | .stopOp => stopScheduler s

/-- Apply a sequence of scheduler API calls. -/
def applyOps (s : SchedulerState) (ops : List SchedOp) : SchedulerState :=
  ops.foldl applyOp s

/-! ## Helper lemmas -/

/-- Every event emitted by the primary record sweep is a decode or validate
call for a key of exact record length whose tag is within the message-tag
range. -/
theorem sweepMessages_events (env : Env) (fid : Nat) :
    ∀ l e, e ∈ (sweepMessages env fid l).2 →
      ∃ k, (e = .mdecode fid k ∨ e = .mvalidate fid k) ∧
        k.length = RECORD_KEY_LEN ∧ tagOf k ≤ UserMessagePostfixMax := by
  intro l
  induction l with
  | nil => intro e he; simp [sweepMessages] at he
  | cons kv rest ih =>
    intro e he
    simp only [sweepMessages, List.mem_append] at he
    rcases he with he | he
    · by_cases hlen : kv.1.length = RECORD_KEY_LEN
      · by_cases htag : UserMessagePostfixMax < tagOf kv.1
        · simp [processMessageKey, hlen, htag] at he
        · rcases hdec : env.messageDecode kv.2 with e0 | m <;>
            simp [processMessageKey, hlen, htag, hdec] at he
          · exact ⟨kv.1, Or.inl he, hlen, Nat.le_of_not_lt htag⟩
          · rcases he with he | he
            · exact ⟨kv.1, Or.inl he, hlen, Nat.le_of_not_lt htag⟩
            · exact ⟨kv.1, Or.inr he, hlen, Nat.le_of_not_lt htag⟩
      · simp [processMessageKey, hlen] at he
    · exact ih e he

/-- Every event emitted by the username sweep is a decode or validate call
for a key of exact record length whose tag is the username-proof tag or the
user-profile-data tag. -/
theorem sweepUsernames_events (env : Env) (fid : Nat) :
    ∀ l e, e ∈ (sweepUsernames env fid l).2 →
      ∃ k, (e = .udecode fid k ∨ e = .uvalidate fid k) ∧
        k.length = RECORD_KEY_LEN ∧
        (tagOf k = UsernameProofMessage ∨ tagOf k = UserDataMessage) := by
  intro l
  induction l with
  | nil => intro e he; simp [sweepUsernames] at he
  | cons kv rest ih =>
    intro e he
    simp only [sweepUsernames, List.mem_append] at he
    rcases he with he | he
    · by_cases hlen : kv.1.length = RECORD_KEY_LEN
      · by_cases htag : tagOf kv.1 ≠ UsernameProofMessage ∧ tagOf kv.1 ≠ UserDataMessage
        · simp [processUsernameKey, hlen, htag] at he
        · have htag2 : tagOf kv.1 = UsernameProofMessage ∨ tagOf kv.1 = UserDataMessage := by
            by_cases h7 : tagOf kv.1 = UsernameProofMessage
            · exact Or.inl h7
            · by_cases h6 : tagOf kv.1 = UserDataMessage
              · exact Or.inr h6
              · exact absurd ⟨h7, h6⟩ htag
          rcases hdec : env.messageDecode kv.2 with e0 | m <;>
            simp [processUsernameKey, hlen, htag, hdec] at he
          · exact ⟨kv.1, Or.inl he, hlen, htag2⟩
          · rcases he with he | he
            · exact ⟨kv.1, Or.inl he, hlen, htag2⟩
            · exact ⟨kv.1, Or.inr he, hlen, htag2⟩
      · simp [processUsernameKey, hlen] at he
    · exact ih e he

/-- Shape of the trace of `doJobForFid`: a sweep marker or primary-sweep
decode/validate calls. -/
theorem doJobForFid_events (env : Env) (fuel lastJobTimestamp fid : Nat)
    (r : Except HubError Nat) (tr : List JobEvent)
    (h : doJobForFid env fuel lastJobTimestamp fid = some (r, tr)) :
    ∀ e ∈ tr, e = .sweepRun fid ∨
      ∃ k, (e = .mdecode fid k ∨ e = .mvalidate fid k) ∧
        k.length = RECORD_KEY_LEN ∧ tagOf k ≤ UserMessagePostfixMax := by
  unfold doJobForFid at h
  rcases hs : signersLoop env fid fuel [] none with _ | rs
  · rw [hs] at h; exact absurd h (by simp)
  · rcases rs with e0 | evs
    · rw [hs] at h
      simp only [Option.some.injEq, Prod.mk.injEq] at h
      rcases h with ⟨_, h2⟩
      subst h2
      intro e he
      simp at he
    · rw [hs] at h
      dsimp only at h
      by_cases hlt : latestSignerEventTs evs < lastJobTimestamp
      · rw [if_pos hlt] at h
        simp only [Option.some.injEq, Prod.mk.injEq] at h
        rcases h with ⟨_, h2⟩
        subst h2
        intro e he
        simp at he
      · rw [if_neg hlt] at h
        simp only [Option.some.injEq, Prod.mk.injEq] at h
        rcases h with ⟨_, h2⟩
        subst h2
        intro e he
        rcases List.mem_cons.mp he with he | he
        · exact Or.inl he
        · exact Or.inr (sweepMessages_events env fid (env.userKeys fid) e he)

/-- Shape of the trace of `doUsernamesJobForFid`: the sweep marker followed
by username-sweep decode/validate calls. -/
theorem doUsernamesJobForFid_events (env : Env) (fid : Nat) :
    ∀ e ∈ (doUsernamesJobForFid env fid).2, e = .usernamesSweep fid ∨
      ∃ k, (e = .udecode fid k ∨ e = .uvalidate fid k) ∧
        k.length = RECORD_KEY_LEN ∧
        (tagOf k = UsernameProofMessage ∨ tagOf k = UserDataMessage) := by
  intro e he
  rcases List.mem_cons.mp he with he | he
  · exact Or.inl he
  · exact Or.inr (sweepUsernames_events env fid (env.userKeys fid) e he)

/-- Characterization of the per-entity loop's trace: an entity is processed
(`fidProcessed`) iff it occurs in the page and is not below the resume point;
every processed entity's username sweep runs; and every username-sweep decode
call is for a key of exact record length with a username tag. -/
theorem processFids_trace (env : Env) (sigFuel lastJobTimestamp lastFid : Nat) :
    ∀ fids tM tF st out,
      processFids env sigFuel lastJobTimestamp lastFid fids tM tF st = some out →
      ((∀ f, .fidProcessed f ∈ out.2.2.1 ↔
          (f ∈ fids ∧ ¬(0 < lastFid ∧ f < lastFid))) ∧
       (∀ f, f ∈ fids → ¬(0 < lastFid ∧ f < lastFid) →
          .usernamesSweep f ∈ out.2.2.1) ∧
       (∀ g k, .udecode g k ∈ out.2.2.1 →
          k.length = RECORD_KEY_LEN ∧
          (tagOf k = UsernameProofMessage ∨ tagOf k = UserDataMessage))) := by
  intro fids
  induction fids with
  | nil =>
    intro tM tF st out h
    simp only [processFids, Option.some.injEq] at h
    subst h
    refine ⟨?_, ?_, ?_⟩ <;> simp
  | cons fid rest ih =>
    intro tM tF st out h
    by_cases hskip : 0 < lastFid ∧ fid < lastFid
    · simp only [processFids, hskip, if_true] at h
      have ihh := ih tM tF st out h
      refine ⟨?_, ?_, ihh.2.2⟩
      · intro f
        rw [ihh.1 f]
        constructor
        · rintro ⟨hf, hns⟩
          exact ⟨List.mem_cons_of_mem _ hf, hns⟩
        · rintro ⟨hf, hns⟩
          rcases List.mem_cons.mp hf with rfl | hf
          · exact absurd hskip hns
          · exact ⟨hf, hns⟩
      · intro f hf hns
        rcases List.mem_cons.mp hf with rfl | hf
        · exact absurd hskip hns
        · exact ihh.2.1 f hf hns
    · simp only [processFids, hskip, if_false] at h
      rcases hjob : doJobForFid env sigFuel lastJobTimestamp fid with _ | ⟨numChecked, trJob⟩
      · rw [hjob] at h; exact absurd h (by simp)
      · rw [hjob] at h
        dsimp only at h
        rcases hrest : processFids env sigFuel lastJobTimestamp lastFid rest
            (tM + resultUnwrapOr numChecked 0 +
              resultUnwrapOr (doUsernamesJobForFid env fid).1 0)
            (tF + 1)
            (if (tF + 1) % 5000 = 0 then
              { st with hub := ⟨some ⟨fid, lastJobTimestamp⟩⟩ }
            else st) with _ | ⟨a, b, tr, st2⟩
        · rw [hrest] at h; exact absurd h (by simp)
        · rw [hrest] at h
          dsimp only at h
          simp only [Option.some.injEq] at h
          subst h
          have ihh := ih _ _ _ _ hrest
          dsimp only at ihh ⊢
          have hcpMem : ∀ e : JobEvent,
              e ∈ (if (tF + 1) % 5000 = 0 then
                    [JobEvent.checkpointWrite fid lastJobTimestamp]
                  else ([] : List JobEvent)) →
              e = .checkpointWrite fid lastJobTimestamp := by
            intro e he
            split at he <;> simp at he
            exact he
          refine ⟨?_, ?_, ?_⟩
          · intro f
            constructor
            · intro hmem
              rcases List.mem_cons.mp hmem with heq | hmem
              · have : f = fid := by cases heq; rfl
                subst this
                exact ⟨List.mem_cons_self _ _, hskip⟩
              · rcases List.mem_append.mp hmem with hmem | h4
                · rcases List.mem_append.mp hmem with hmem | h3
                  · rcases List.mem_append.mp hmem with h1 | h2
                    · rcases doJobForFid_events env sigFuel lastJobTimestamp fid
                          numChecked trJob hjob _ h1 with h1 | ⟨k, h1 | h1, _⟩ <;> simp at h1
                    · rcases doUsernamesJobForFid_events env fid _ h2 with h2 | ⟨k, h2 | h2, _⟩ <;>
                        simp at h2
                  · have := hcpMem _ h3; simp at this
                · have := (ihh.1 f).mp h4
                  exact ⟨List.mem_cons_of_mem _ this.1, this.2⟩
            · rintro ⟨hf, hns⟩
              rcases List.mem_cons.mp hf with rfl | hf
              · exact List.mem_cons_self _ _
              · have := (ihh.1 f).mpr ⟨hf, hns⟩
                exact List.mem_cons_of_mem _ (List.mem_append.mpr (Or.inr this))
          · intro f hf hns
            rcases List.mem_cons.mp hf with rfl | hf
            · have : JobEvent.usernamesSweep f ∈ (doUsernamesJobForFid env f).2 := by
                simp [doUsernamesJobForFid]
              exact List.mem_cons_of_mem _
                (List.mem_append.mpr (Or.inl (List.mem_append.mpr (Or.inl
                  (List.mem_append.mpr (Or.inr this))))))
            · have := ihh.2.1 f hf hns
              exact List.mem_cons_of_mem _ (List.mem_append.mpr (Or.inr this))
          · intro g k hmem
            rcases List.mem_cons.mp hmem with heq | hmem
            · simp at heq
            · rcases List.mem_append.mp hmem with hmem | h4
              · rcases List.mem_append.mp hmem with hmem | h3
                · rcases List.mem_append.mp hmem with h1 | h2
                  · rcases doJobForFid_events env sigFuel lastJobTimestamp fid
                        numChecked trJob hjob _ h1 with h1 | ⟨k2, h1 | h1, _⟩ <;> simp at h1
                  · rcases doUsernamesJobForFid_events env fid _ h2 with h2 | ⟨k2, h2 | h2, hk2⟩
                    · simp at h2
                    · have : g = fid ∧ k = k2 := by
                        cases h2; exact ⟨rfl, rfl⟩
                      rcases this with ⟨_, rfl⟩
                      exact hk2
                    · simp at h2
                · have := hcpMem _ h3; simp at this
              · exact ihh.2.2 g k h4

/-- When the entity-page loop returns a success, it has exhausted all pages:
the final state has the running flag cleared and the terminal checkpoint
persisted, and the trace records the terminal checkpoint write. -/
theorem fidsLoop_ok (env : Env) (sigFuel lastJobTimestamp lastFid : Nat) :
    ∀ pageFuel pageToken tM tF st n tr st2,
      fidsLoop env sigFuel lastJobTimestamp lastFid pageFuel pageToken tM tF st =
        some (.ok n, tr, st2) →
      st2 = ⟨false, ⟨some ⟨0, resultUnwrapOr (toFarcasterTime env.now) 0⟩⟩⟩ ∧
      JobEvent.checkpointWrite 0 (resultUnwrapOr (toFarcasterTime env.now) 0) ∈ tr := by
  intro pageFuel
  induction pageFuel with
  | zero =>
    intro pageToken tM tF st n tr st2 h
    exact absurd h (by simp [fidsLoop])
  | succ pageFuel ih =>
    intro pageToken tM tF st n tr st2 h
    rcases hg : env.getFids pageToken with e | ⟨fids, nextPageToken⟩
    · rw [fidsLoop, hg] at h
      simp at h
    · rw [fidsLoop, hg] at h
      dsimp only at h
      rcases hp : processFids env sigFuel lastJobTimestamp lastFid fids tM tF st with
        _ | ⟨a, b, trP, stP⟩
      · rw [hp] at h; exact absurd h (by simp)
      · rw [hp] at h
        dsimp only at h
        rcases nextPageToken with _ | t
        · simp only [Option.some.injEq, Prod.mk.injEq] at h
          rcases h with ⟨_, h2, h3⟩
          subst h3
          subst h2
          exact ⟨rfl, List.mem_append.mpr (Or.inr (List.mem_cons_self _ _))⟩
        · dsimp only at h
          rcases hr : fidsLoop env sigFuel lastJobTimestamp lastFid pageFuel (some t) a b stP with
            _ | ⟨r, tr2, st3⟩
          · rw [hr] at h; exact absurd h (by simp)
          · rw [hr] at h
            dsimp only at h
            simp only [Option.some.injEq, Prod.mk.injEq] at h
            rcases h with ⟨h1, h2, h3⟩
            have hres := ih (some t) a b stP n tr2 st3 (h1 ▸ hr)
            exact ⟨h3 ▸ hres.1, h2 ▸ List.mem_append.mpr (Or.inr hres.2)⟩

/-! ## Claim theorems -/

/-- C1 (amended): a signer-event-fetch failure makes `doJobForFid` return the
error, but `doJobs` swallows it with `unwrapOr(0)`: the failing entity
contributes zero primary-sweep records (its username sweep still runs and
still counts), the entity is counted as processed, and the loop continues
with the remaining entities instead of aborting the run. -/
theorem c1_amended_errorSwallowed (env : Env) (sigFuel lastJobTimestamp lastFid fid : Nat)
    (rest : List Nat) (tM tF : Nat) (st : JobState) (e : HubError) (trJob : List JobEvent)
    (hns : ¬(0 < lastFid ∧ fid < lastFid))
    (herr : doJobForFid env sigFuel lastJobTimestamp fid = some (.error e, trJob))
    (hcp : (tF + 1) % 5000 ≠ 0) :
    processFids env sigFuel lastJobTimestamp lastFid (fid :: rest) tM tF st =
      (processFids env sigFuel lastJobTimestamp lastFid rest
          (tM + 0 + resultUnwrapOr (doUsernamesJobForFid env fid).1 0) (tF + 1) st).map
        (fun res =>
          (res.1, res.2.1,
           .fidProcessed fid ::
             (trJob ++ (doUsernamesJobForFid env fid).2 ++ res.2.2.1),
           res.2.2.2)) := by
  simp only [processFids, hns, if_false, herr]
  simp only [resultUnwrapOr, hcp, if_neg, if_false, List.append_nil]
  cases processFids env sigFuel lastJobTimestamp lastFid rest
      (tM + 0 +
        (match (doUsernamesJobForFid env fid).1 with
          | .ok v => v
          | .error _ => 0)) (tF + 1) st with
  | none => rfl
  | some res => rfl

/-- C2 (code bug): the signer-event fetch loop never passes the continuation
token to the query, so whenever the response carries a continuation token the
loop refetches the same page forever: for every fuel bound the loop fails to
terminate. -/
theorem c2_signersLoopNeverTerminates (env : Env) (fid : Nat)
    (events : List OnChainEvent) (t : Nat)
    (h : env.getOnChainSignersByFid fid = .ok (events, some t)) :
    ∀ fuel allSigners pageToken,
      signersLoop env fid fuel allSigners pageToken = none := by
  intro fuel
  induction fuel with
  | zero => intro allSigners pageToken; rfl
  | succ n ih =>
    intro allSigners pageToken
    simp only [signersLoop, h]
    exact ih (allSigners ++ events) (some t)

/-- C3 (code bug): when the first entity-page fetch fails, `doJobs` returns
the error with the `_running` flag left `true`, so every subsequent trigger
returns a zero-count success without scanning anything: the job is dead until
process restart rather than resuming from the checkpoint. -/
theorem c3_runningFlagStuck (env : Env) (pageFuel sigFuel pageFuel2 sigFuel2 : Nat)
    (st : JobState) (e : HubError)
    (hrun : st.running = false)
    (hhub : env.getHubStateErr = none)
    (hfids : env.getFids none = .error e) :
    doJobs env (pageFuel + 1) sigFuel st = some (.error e, [], ⟨true, st.hub⟩) ∧
    doJobs env pageFuel2 sigFuel2 ⟨true, st.hub⟩ = some (.ok 0, [], ⟨true, st.hub⟩) := by
  constructor
  · simp only [doJobs, hrun, Bool.false_eq_true, if_false, hhub]
    simp only [fidsLoop, hfids]
  · simp [doJobs]

/-- C4: triggering `doJobs` while a run is in progress is a zero-count
success no-op: it returns `ok 0`, performs no external calls (empty trace)
and leaves the state unchanged. -/
theorem c4_triggerWhileRunningNoop (env : Env) (pageFuel sigFuel : Nat) (st : JobState)
    (h : st.running = true) :
    doJobs env pageFuel sigFuel st = some (.ok 0, [], st) := by
  simp [doJobs, h]

/-- C5: an entity whose latest signer-event logical timestamp is strictly
below `lastJobTimestamp` skips the record sweep entirely: `doJobForFid`
returns `ok 0` with an empty trace (no sweep, no decode, no validate
calls). -/
theorem c5_staleEntitySkipped (env : Env) (fuel lastJobTimestamp fid : Nat)
    (allSigners : List OnChainEvent)
    (hsig : signersLoop env fid fuel [] none = some (.ok allSigners))
    (hstale : latestSignerEventTs allSigners < lastJobTimestamp) :
    doJobForFid env fuel lastJobTimestamp fid = some (.ok 0, []) := by
  rw [doJobForFid, hsig]
  dsimp only
  rw [if_pos hstale]

/-- C6: with a positive checkpointed `lastFid = X`, the per-entity loop
processes an entity iff it occurs in the page stream and its id is at least
`X`: everything below `X` is skipped, everything at or above `X` (including
entities added after the interruption) is processed. -/
theorem c6_resumeSkipsBelowCheckpoint (env : Env) (sigFuel lastJobTimestamp X : Nat)
    (fids : List Nat) (tM tF : Nat) (st : JobState)
    (totalM totalF : Nat) (tr : List JobEvent) (st2 : JobState)
    (hX : 0 < X)
    (h : processFids env sigFuel lastJobTimestamp X fids tM tF st =
      some (totalM, totalF, tr, st2)) :
    ∀ f, (.fidProcessed f ∈ tr ↔ (f ∈ fids ∧ X ≤ f)) := by
  intro f
  have hch := (processFids_trace env sigFuel lastJobTimestamp X fids tM tF st _ h).1 f
  dsimp only at hch
  rw [hch]
  constructor
  · rintro ⟨hf, hns⟩
    refine ⟨hf, ?_⟩
    by_contra hlt
    exact hns ⟨hX, Nat.lt_of_not_le hlt⟩
  · rintro ⟨hf, hle⟩
    exact ⟨hf, fun hc => Nat.not_le_of_lt hc.2 hle⟩

/-- C7: a successful run (pages exhausted) leaves the terminal checkpoint
persisted — `lastFid = 0` and `lastJobTimestamp` equal to the run's start
wall-clock time converted to logical time — and the trace records that
terminal checkpoint write. -/
theorem c7_terminalCheckpoint (env : Env) (pageFuel sigFuel : Nat) (st : JobState)
    (n : Nat) (tr : List JobEvent) (st2 : JobState)
    (hrun : st.running = false)
    (h : doJobs env pageFuel sigFuel st = some (.ok n, tr, st2)) :
    st2.hub.validateOrRevokeState =
      some ⟨0, resultUnwrapOr (toFarcasterTime env.now) 0⟩ ∧
    JobEvent.checkpointWrite 0 (resultUnwrapOr (toFarcasterTime env.now) 0) ∈ tr := by
  unfold doJobs at h
  rw [hrun] at h
  simp only [Bool.false_eq_true, if_false] at h
  rcases hhub : env.getHubStateErr with _ | e
  · rw [hhub] at h
    dsimp only at h
    have hres := fidsLoop_ok env sigFuel _ _ pageFuel none 0 0 ⟨true, st.hub⟩ n tr st2 h
    exact ⟨by rw [hres.1], hres.2⟩
  · rw [hhub] at h
    dsimp only at h
    exact absurd h (by simp)

/-- C8: the username sweep runs for every processed entity, whatever
`lastJobTimestamp` is (in particular when the staleness check skipped the
primary sweep), and every record it passes to the decode/validate path has
the exact record-key length and the username-proof or user-profile-data
tag. -/
theorem c8_usernamesSweepAlwaysRuns (env : Env) (sigFuel lastJobTimestamp lastFid : Nat)
    (fids : List Nat) (tM tF : Nat) (st : JobState)
    (totalM totalF : Nat) (tr : List JobEvent) (st2 : JobState) (f : Nat)
    (h : processFids env sigFuel lastJobTimestamp lastFid fids tM tF st =
      some (totalM, totalF, tr, st2))
    (hf : f ∈ fids)
    (hns : ¬(0 < lastFid ∧ f < lastFid)) :
    .usernamesSweep f ∈ tr ∧
    ∀ g k, .udecode g k ∈ tr →
      k.length = RECORD_KEY_LEN ∧
      (tagOf k = UsernameProofMessage ∨ tagOf k = UserDataMessage) := by
  have hch := processFids_trace env sigFuel lastJobTimestamp lastFid fids tM tF st _ h
  exact ⟨hch.2.1 f hf hns, hch.2.2⟩

/-- C9: keys whose length differs from the fixed record-key length, or whose
tag is out of range, are skipped without error by both sweeps and are never
passed to the decode/validate path: the per-key filters return zero records
and no events, and every decode call in either sweep's trace is for a key of
exact length with an in-range tag. -/
theorem c9_keyFiltering (env : Env) (fid : Nat) (kv : List Nat × List Nat)
    (l : List (List Nat × List Nat)) (k : List Nat) :
    (kv.1.length ≠ RECORD_KEY_LEN ∨ UserMessagePostfixMax < tagOf kv.1 →
      processMessageKey env fid kv = (0, [])) ∧
    (kv.1.length ≠ RECORD_KEY_LEN ∨
        (tagOf kv.1 ≠ UsernameProofMessage ∧ tagOf kv.1 ≠ UserDataMessage) →
      processUsernameKey env fid kv = (0, [])) ∧
    (.mdecode fid k ∈ (sweepMessages env fid l).2 →
      k.length = RECORD_KEY_LEN ∧ tagOf k ≤ UserMessagePostfixMax) ∧
    (.udecode fid k ∈ (sweepUsernames env fid l).2 →
      k.length = RECORD_KEY_LEN ∧
      (tagOf k = UsernameProofMessage ∨ tagOf k = UserDataMessage)) := by
  refine ⟨?_, ?_, ?_, ?_⟩
  · rintro (hlen | htag)
    · simp [processMessageKey, hlen]
    · by_cases hlen : kv.1.length = RECORD_KEY_LEN
      · simp [processMessageKey, hlen, htag]
      · simp [processMessageKey, hlen]
  · rintro (hlen | htag)
    · simp [processUsernameKey, hlen]
    · by_cases hlen : kv.1.length = RECORD_KEY_LEN
      · simp [processUsernameKey, hlen, htag]
      · simp [processUsernameKey, hlen]
  · intro hmem
    rcases sweepMessages_events env fid l _ hmem with ⟨k2, hk | hk, hlen, htag⟩
    · cases hk; exact ⟨hlen, htag⟩
    · simp at hk
  · intro hmem
    rcases sweepUsernames_events env fid l _ hmem with ⟨k2, hk | hk, hlen, htag⟩
    · cases hk; exact ⟨hlen, htag⟩
    · simp at hk

/-- The cron-task registration survives any sequence of scheduler calls. -/
theorem cronTask_isSome_applyOps :
    ∀ (ops : List SchedOp) (s : SchedulerState),
      s.cronTask.isSome → ((applyOps s ops).cronTask).isSome := by
  intro ops
  induction ops with
  | nil => intro s h; exact h
  | cons op rest ih =>
    intro s h
    show ((applyOps (applyOp s op) rest).cronTask).isSome
    apply ih
    cases op with
    | startOp sched => simp [applyOp, startScheduler]
    | stopOp =>
      rcases hc : s.cronTask with _ | task
      · rw [hc] at h; simp at h
      · simp [applyOp, stopScheduler, hc]

/-- C10: once `start()` has been called, `status()` reports `started` forever
after, across any further sequence of `start`/`stop` calls — `stop()` keeps
the task registered, and `status()` only checks registration. -/
theorem c10_statusStartedForever (s : SchedulerState) (sched : Option String)
    (ops : List SchedOp) :
    schedStatus (applyOps (startScheduler s sched) ops) = .started := by
  have h : ((startScheduler s sched).cronTask).isSome := rfl
  have h2 := cronTask_isSome_applyOps ops _ h
  unfold schedStatus
  rw [if_pos h2]

/-! ## Concrete environments, counterexample, witnesses -/

/-- Environment for C1: two entities on one page; entity 1's signer-event
fetch fails, entity 2's succeeds with no events. -/
def envC1 : Env where
  getHubStateErr := none
  now := 1609459200000
  getFids := fun _ => .ok ([1, 2], none)
  getOnChainSignersByFid := fun f =>
    if f = 1 then .error ⟨"unavailable", "no signer events"⟩ else .ok ([], none)
  userKeys := fun _ => []
  messageDecode := fun _ => .ok 0

/-- C1 counterexample: the signer-event fetch for entity 1 fails
(`doJobForFid` returns the error), yet `doJobs` returns `ok` — not that
error — and the trace shows entity 2 was still processed afterwards.  This
refutes the claim that the run aborts with the error and performs no further
entity processing. -/
theorem c1_counterexample :
    doJobForFid envC1 1 0 1 =
      some (.error ⟨"unavailable", "no signer events"⟩, []) ∧
    doJobs envC1 1 1 ⟨false, ⟨none⟩⟩ =
      some (.ok 0,
        [.fidProcessed 1, .usernamesSweep 1, .fidProcessed 2, .sweepRun 2,
         .usernamesSweep 2, .checkpointWrite 0 0],
        ⟨false, ⟨some ⟨0, 0⟩⟩⟩) ∧
    JobEvent.fidProcessed 2 ∈
      [JobEvent.fidProcessed 1, .usernamesSweep 1, .fidProcessed 2, .sweepRun 2,
       .usernamesSweep 2, .checkpointWrite 0 0] :=
  ⟨rfl, rfl, by decide⟩

theorem c1_amended_witness :
    processFids envC1 1 0 0 (1 :: [2]) 0 0 ⟨true, ⟨none⟩⟩ =
      (processFids envC1 1 0 0 [2]
          (0 + 0 + resultUnwrapOr (doUsernamesJobForFid envC1 1).1 0) (0 + 1)
          ⟨true, ⟨none⟩⟩).map
        (fun res =>
          (res.1, res.2.1,
           .fidProcessed 1 ::
             ([] ++ (doUsernamesJobForFid envC1 1).2 ++ res.2.2.1),
           res.2.2.2)) :=
  c1_amended_errorSwallowed envC1 1 0 0 1 [2] 0 0 ⟨true, ⟨none⟩⟩
    ⟨"unavailable", "no signer events"⟩ [] (by decide) rfl (by decide)

/-- Environment for C2: every signer-event query response carries a
continuation token (a multi-page signer set). -/
def envC2 : Env where
  getHubStateErr := none
  now := 0
  getFids := fun _ => .ok ([], none)
  getOnChainSignersByFid := fun _ => .ok ([], some 0)
  userKeys := fun _ => []
  messageDecode := fun _ => .ok 0

theorem c2_witness :
    envC2.getOnChainSignersByFid 7 = .ok ([], some 0) ∧
    signersLoop envC2 7 25 [] none = none :=
  ⟨rfl, c2_signersLoopNeverTerminates envC2 7 [] 0 rfl 25 [] none⟩

/-- Environment for C3: the first entity-page fetch fails. -/
def envC3 : Env where
  getHubStateErr := none
  now := 0
  getFids := fun _ => .error ⟨"unavailable", "fids page fetch failed"⟩
  getOnChainSignersByFid := fun _ => .ok ([], none)
  userKeys := fun _ => []
  messageDecode := fun _ => .ok 0

theorem c3_witness :
    doJobs envC3 1 1 ⟨false, ⟨some ⟨42, 99⟩⟩⟩ =
      some (.error ⟨"unavailable", "fids page fetch failed"⟩, [],
            ⟨true, ⟨some ⟨42, 99⟩⟩⟩) ∧
    doJobs envC3 1 1 ⟨true, ⟨some ⟨42, 99⟩⟩⟩ =
      some (.ok 0, [], ⟨true, ⟨some ⟨42, 99⟩⟩⟩) :=
  c3_runningFlagStuck envC3 0 1 1 1 ⟨false, ⟨some ⟨42, 99⟩⟩⟩
    ⟨"unavailable", "fids page fetch failed"⟩ rfl rfl rfl

theorem c4_witness :
    (⟨true, ⟨none⟩⟩ : JobState).running = true ∧
    doJobs envC2 3 3 ⟨true, ⟨none⟩⟩ = some (.ok 0, [], ⟨true, ⟨none⟩⟩) :=
  ⟨rfl, c4_triggerWhileRunningNoop envC2 3 3 ⟨true, ⟨none⟩⟩ rfl⟩

/-- A well-formed record key with the user-profile-data tag (6). -/
def gkey : List Nat := [1, 0, 0, 0, 5, 6] ++ List.replicate 24 0

/-- A well-formed record key with the username-proof tag (7). -/
def ukey : List Nat := [1, 0, 0, 0, 5, 7] ++ List.replicate 24 0

/-- A well-formed-length record key with tag 3 (a message tag that is neither
username-proof nor user-profile-data). -/
def bkey : List Nat := [1, 0, 0, 0, 5, 3] ++ List.replicate 24 0

/-- Environment for C5: one signer event at logical time 10, and a decodable
record under the entity prefix (which the stale-skip must not touch). -/
def envC5 : Env where
  getHubStateErr := none
  now := 0
  getFids := fun _ => .ok ([1], none)
  getOnChainSignersByFid := fun _ => .ok ([⟨1609459210⟩], none)
  userKeys := fun _ => [(gkey, [0])]
  messageDecode := fun _ => .ok 0

theorem c5_witness :
    signersLoop envC5 1 1 [] none = some (.ok [⟨1609459210⟩]) ∧
    latestSignerEventTs [⟨1609459210⟩] < 11 ∧
    doJobForFid envC5 1 11 1 = some (.ok 0, []) :=
  ⟨rfl, by decide,
   c5_staleEntitySkipped envC5 1 11 1 [⟨1609459210⟩] rfl (by decide)⟩

/-- Environment for C6: four entities on one page, no signer events. -/
def envC6 : Env where
  getHubStateErr := none
  now := 1609459200000
  getFids := fun _ => .ok ([1, 2, 3, 4], none)
  getOnChainSignersByFid := fun _ => .ok ([], none)
  userKeys := fun _ => []
  messageDecode := fun _ => .ok 0

theorem c6_witness :
    (JobEvent.fidProcessed 4 ∈
      [JobEvent.fidProcessed 3, .sweepRun 3, .usernamesSweep 3,
       .fidProcessed 4, .sweepRun 4, .usernamesSweep 4]) ↔
    ((4 : Nat) ∈ ([1, 2, 3, 4] : List Nat) ∧ 3 ≤ 4) :=
  c6_resumeSkipsBelowCheckpoint envC6 1 0 3 [1, 2, 3, 4] 0 0 ⟨true, ⟨none⟩⟩ 0 2
    [.fidProcessed 3, .sweepRun 3, .usernamesSweep 3,
     .fidProcessed 4, .sweepRun 4, .usernamesSweep 4]
    ⟨true, ⟨none⟩⟩ (by decide) rfl 4

/-- Environment for C7: no entities; run start time five seconds past the
epoch, so the terminal logical timestamp is 5. -/
def envC7 : Env where
  getHubStateErr := none
  now := 1609459205000
  getFids := fun _ => .ok ([], none)
  getOnChainSignersByFid := fun _ => .ok ([], none)
  userKeys := fun _ => []
  messageDecode := fun _ => .ok 0

theorem c7_witness :
    (⟨false, ⟨none⟩⟩ : JobState).running = false ∧
    ((⟨false, ⟨some ⟨0, 5⟩⟩⟩ : JobState).hub.validateOrRevokeState =
      some ⟨0, resultUnwrapOr (toFarcasterTime envC7.now) 0⟩ ∧
     JobEvent.checkpointWrite 0 (resultUnwrapOr (toFarcasterTime envC7.now) 0) ∈
      [JobEvent.checkpointWrite 0 5]) :=
  ⟨rfl,
   c7_terminalCheckpoint envC7 1 1 ⟨false, ⟨none⟩⟩ 0 [.checkpointWrite 0 5]
     ⟨false, ⟨some ⟨0, 5⟩⟩⟩ rfl rfl⟩

/-- Environment for C8: one entity with one username-proof record; the
staleness watermark (999) makes the primary sweep skip, while the username
sweep still runs. -/
def envC8 : Env where
  getHubStateErr := none
  now := 1609459200000
  getFids := fun _ => .ok ([5], none)
  getOnChainSignersByFid := fun _ => .ok ([], none)
  userKeys := fun _ => [(ukey, [0])]
  messageDecode := fun _ => .ok 0

/-- The trace of the C8 run: no `sweepRun` event (primary sweep skipped as
stale), but the username sweep and its decode/validate calls are present. -/
def trW8 : List JobEvent :=
  [.fidProcessed 5, .usernamesSweep 5, .udecode 5 ukey, .uvalidate 5 ukey]

theorem c8_witness :
    JobEvent.usernamesSweep 5 ∈ trW8 ∧
    (ukey.length = RECORD_KEY_LEN ∧
      (tagOf ukey = UsernameProofMessage ∨ tagOf ukey = UserDataMessage)) :=
  ⟨(c8_usernamesSweepAlwaysRuns envC8 1 999 0 [5] 0 0 ⟨true, ⟨none⟩⟩ 1 1 trW8
      ⟨true, ⟨none⟩⟩ 5 rfl (by decide) (by decide)).1,
   (c8_usernamesSweepAlwaysRuns envC8 1 999 0 [5] 0 0 ⟨true, ⟨none⟩⟩ 1 1 trW8
      ⟨true, ⟨none⟩⟩ 5 rfl (by decide) (by decide)).2 5 ukey (by decide)⟩

/-- Environment for C9: a store that decodes everything. -/
def envC9 : Env where
  getHubStateErr := none
  now := 0
  getFids := fun _ => .ok ([], none)
  getOnChainSignersByFid := fun _ => .ok ([], none)
  userKeys := fun _ => [(gkey, [0])]
  messageDecode := fun _ => .ok 0

theorem c9_witness :
    processMessageKey envC9 1 ([1, 2, 3], []) = (0, []) ∧
    processUsernameKey envC9 1 (bkey, []) = (0, []) ∧
    (gkey.length = RECORD_KEY_LEN ∧ tagOf gkey ≤ UserMessagePostfixMax) ∧
    (gkey.length = RECORD_KEY_LEN ∧
      (tagOf gkey = UsernameProofMessage ∨ tagOf gkey = UserDataMessage)) :=
  ⟨(c9_keyFiltering envC9 1 ([1, 2, 3], []) [(gkey, [0])] gkey).1
      (Or.inl (by decide)),
   (c9_keyFiltering envC9 1 (bkey, []) [(gkey, [0])] gkey).2.1
      (Or.inr (by decide)),
   (c9_keyFiltering envC9 1 ([1, 2, 3], []) [(gkey, [0])] gkey).2.2.1
      (by decide),
   (c9_keyFiltering envC9 1 ([1, 2, 3], []) [(gkey, [0])] gkey).2.2.2
      (by decide)⟩

end VrJob
